import Mathlib

/-!
# Verification of the Sparc MC code emitter (SparcMCCodeEmitter.cpp)

Shallow embedding of `llvm/lib/Target/Sparc/MCTargetDesc/SparcMCCodeEmitter.cpp`:
the compact 5-bit immediate codecs (`imm5OpEncoder`, `sImm5OpEncoder`), the
operand-value resolution functions (`getMachineOpValue`, `getSImm13OpValue`,
`getImm5OpValue`, `getSImm5OpValue`, `getCallTargetOpValue`,
`getBranchTargetOpValue`, `getBranchPredTargetOpValue`,
`getBranchOnRegTargetOpValue`) and the orchestrating `encodeInstruction`.

Machine integers: `unsigned` results are modelled as `Nat` reduced mod `2 ^ 32`
at each C++ `int64_t → unsigned` conversion; `int64_t` values are `Int`.
`report_fatal_error` and failing assertions are modelled as `Except.error`.
-/

namespace SparcMC

/-- Fuel-bounded count-trailing-zeros, mirroring `__builtin_ctz`.
The fuel argument makes the recursion structural, so terms reduce by `rfl`;
`ctz n := ctzAux n n` is exact for every `n > 0` since the number of
trailing zeros of `n` is at most `log2 n < n`. `ctz 0` is never consulted
(the C++ never calls `__builtin_ctz(0)` on the paths embedded here). -/
def ctzAux : Nat → Nat → Nat
  | 0, _ => 0
  | fuel + 1, n => if n % 2 = 1 ∨ n = 0 then 0 else ctzAux fuel (n / 2) + 1

/-- `__builtin_ctz`: index of the lowest set bit of `n` (for `n > 0`). -/
def ctz (n : Nat) : Nat := ctzAux n n

/-- The fatal-error outcomes of the emitter, one constructor per distinct
`report_fatal_error` / assertion site modelled here. -/
inductive EncError
  /-- `report_fatal_error("Invalid value for ... must be within ... range")`:
  the domain-range check of a compact codec fired. -/
  | domainError
  /-- `report_fatal_error("... must be representable by ...")`: the round-trip
  verification step of a compact codec fired. -/
  | verifError
  /-- `verifyInstructionPredicates` rejected the instruction. -/
  | predicateFail
  /-- an `assert` in the emitter fired (e.g. `assert(MO.isExpr())`,
  `assert(op == 0)`). -/
  | assertFail
  /-- `llvm_unreachable("Unhandled expression!")` in `getMachineOpValue`. -/
  | unreachableExpr
deriving DecidableEq, Repr

/-- C++ `int64_t → unsigned` conversion: value mod `2 ^ 32`. -/
def toUInt32n (i : Int) : Nat := (i % (2 ^ 32 : Int)).toNat

/-- `SparcMCCodeEmitter::imm5OpEncoder` (source lines 195-220), line by line:
zero maps to `0b00001`; values outside `[0, 255]` are a fatal domain error;
otherwise an odd value is incremented with bit 0 set, then if bit 1 of the
adjusted value is set and the value exceeds 2 it is decremented by 2 with
bit 4 set, the trailing-zero count is placed in bits 3..1, and the built-in
verification recomputes `exp + plus - sub` and fatally rejects a mismatch.
(The C++ computes `tgt` in `unsigned` arithmetic; since `exp ≥ 1` and
`sub ≤ 1` no wraparound occurs, so `Int` arithmetic is exact.) -/
def imm5OpEncoder (imm : Int) : Except EncError Nat :=
  if imm = 0 then .ok 1
  else if imm > 255 ∨ imm < 0 then .error .domainError
  else
    let v0 : Nat := imm.toNat
    let p1 : Nat × Nat := if v0 % 2 = 1 then (v0 + 1, 1) else (v0, 0)
    let p2 : Nat × Nat :=
      if p1.1 &&& 2 = 2 ∧ p1.1 > 2 then (p1.1 - 2, p1.2 ||| 16) else p1
    let result : Nat := p2.2 ||| (ctz p2.1 <<< 1)
    let plus : Nat := (result >>> 3) &&& 2
    let sub : Nat := result &&& 1
    let exp : Nat := 1 <<< ((result >>> 1) &&& 7)
    let tgt : Int := (exp : Int) + (plus : Int) - (sub : Int)
    if tgt = imm then .ok result else .error .verifError

/-- `SparcMCCodeEmitter::sImm5OpEncoder` (source lines 223-247), line by line:
zero maps to `0b00001`; values outside `[-128, 127]` are a fatal domain
error; a negative value sets bit 4 and is negated; an odd magnitude is
incremented with bit 0 set; the trailing-zero count goes in bits 3..1; the
verification recomputes `sign * (exp - sub)` and fatally rejects a mismatch.
(The C++ `sign * (exp - sub)` mixes `signed` and `unsigned`: it wraps mod
`2 ^ 32` and is converted back to `signed`; since `exp ≤ 128` the two
conversions cancel and the `Int` value below is exact.) -/
def sImm5OpEncoder (imm : Int) : Except EncError Nat :=
  if imm = 0 then .ok 1
  else if imm > 127 ∨ imm < -128 then .error .domainError
  else
    let p0 : Nat × Nat := if imm < 0 then ((-imm).toNat, 16) else (imm.toNat, 0)
    let p1 : Nat × Nat := if p0.1 % 2 = 1 then (p0.1 + 1, p0.2 ||| 1) else p0
    let result : Nat := p1.2 ||| (ctz p1.1 <<< 1)
    let sign : Int := if result >>> 4 ≠ 0 then -1 else 1
    let sub : Nat := result &&& 1
    let exp : Nat := 1 <<< ((result >>> 1) &&& 7)
    let tgt : Int := sign * ((exp : Int) - (sub : Int))
    if tgt = imm then .ok result else .error .verifError

/-- Decode formula for the unsigned magnitude form, transcribed from the
spec sentence: `2^((code>>1)&0b111) + 2*((code>>4)&1) - (code&1)`. -/
def imm5Decode (code : Nat) : Int :=
  (2 : Int) ^ ((code >>> 1) &&& 7) + 2 * (((code >>> 4) &&& 1 : Nat) : Int)
    - ((code &&& 1 : Nat) : Int)

/-- Decode formula for the signed magnitude form, transcribed from the spec
sentence: `sign * (2^((code>>1)&0b111) - (code&1))` with `sign = -1` when
bit 4 of the code is set, `+1` otherwise. -/
def sImm5Decode (code : Nat) : Int :=
  (if (code >>> 4) &&& 1 = 1 then (-1 : Int) else 1) *
    ((2 : Int) ^ ((code >>> 1) &&& 7) - ((code &&& 1 : Nat) : Int))

/-- Boolean round-trip checker for `imm5OpEncoder`: on success the produced
code is 5 bits wide and decodes back to the input; a failure is ignored. -/
def imm5RoundTripOK (v : Int) : Bool :=
  match imm5OpEncoder v with
  | .ok c => imm5Decode c == v && c < 32
  | .error _ => true

/-- Boolean round-trip checker for `sImm5OpEncoder`. -/
def sImm5RoundTripOK (v : Int) : Bool :=
  match sImm5OpEncoder v with
  | .ok c => sImm5Decode c == v && c < 32
  | .error _ => true

lemma imm5RoundTrip_sound (v : Int) (h : imm5RoundTripOK v = true) :
    ∀ c, imm5OpEncoder v = .ok c → imm5Decode c = v ∧ c < 32 := by
  intro c hc
  unfold imm5RoundTripOK at h
  rw [hc] at h
  simp only [Bool.and_eq_true, beq_iff_eq, decide_eq_true_eq] at h
  exact h

lemma sImm5RoundTrip_sound (v : Int) (h : sImm5RoundTripOK v = true) :
    ∀ c, sImm5OpEncoder v = .ok c → sImm5Decode c = v ∧ c < 32 := by
  intro c hc
  unfold sImm5RoundTripOK at h
  rw [hc] at h
  simp only [Bool.and_eq_true, beq_iff_eq, decide_eq_true_eq] at h
  exact h

set_option maxRecDepth 8000 in
lemma imm5RoundTripOK_all : ∀ n : Nat, n < 256 → imm5RoundTripOK (n : Int) = true := by
  decide

set_option maxRecDepth 8000 in
lemma sImm5RoundTripOK_all :
    ∀ n : Nat, n < 256 → sImm5RoundTripOK ((n : Int) - 128) = true := by
  decide

/-- Sparc fixup kinds (from `SparcFixupKinds.h`, consumed opaquely here):
only the kinds this file selects are named; `other n` stands for any further
kind carried by a `SparcMCExpr` via `getFixupKind()`. -/
inductive MCFixupKind
  | fixup_sparc_13
  | fixup_sparc_got13
  | fixup_sparc_5
  | fixup_sparc_got5
  | fixup_sparc_br22
  | fixup_sparc_br19
  | fixup_sparc_br16_2
  | fixup_sparc_br16_14
  | other (n : Nat)
deriving DecidableEq, Repr

/-- The expression forms the emitter distinguishes: an `MCConstantExpr`, a
`SparcMCExpr` (modelled as carrying the fixup kind its `getFixupKind()`
reports, plus its sub-expression), or any other expression that does not
fold to a constant (a symbol reference, identified by an opaque id). -/
inductive MCExpr
  | constant (n : Int)
  | sparc (fk : MCFixupKind) (sub : MCExpr)
  | symbol (id : Nat)
deriving DecidableEq, Repr

/-- `MCExpr::evaluateAsAbsolute`: an `MCConstantExpr` folds to its value; a
bare symbol reference does not. (A `SparcMCExpr` is always intercepted
before this query on the paths embedded here.) -/
def evaluateAsAbsolute : MCExpr → Option Int
  | .constant n => some n
  | _ => none

/-- `MCFixup::create(0, Expr, Kind)`: offset placeholder, expression, kind. -/
structure MCFixup where
  offset : Nat
  expr : MCExpr
  kind : MCFixupKind
deriving DecidableEq, Repr

/-- `MCOperand`: register id, `int64_t` immediate, or expression. -/
inductive MCOperandVal
  | reg (r : Nat)
  | imm (i : Int)
  | expr (e : MCExpr)
deriving DecidableEq, Repr

/-- Opcodes the emitter treats specially; every other opcode is `other n`. -/
inductive Opcode
  | TLS_CALL
  | TLS_ADDrr
  | TLS_ADDXrr
  | TLS_LDrr
  | TLS_LDXrr
  | other (n : Nat)
deriving DecidableEq, Repr

/-- `MCInst`: opcode plus ordered operand list. -/
structure MCInst where
  opcode : Opcode
  operands : List MCOperandVal
deriving DecidableEq, Repr

/-- The configuration the emitter reads from `MCContext`: byte order
(`MCAsmInfo::isLittleEndian`), position independence
(`MCObjectFileInfo::isPositionIndependent`) and the register-encoding table
(`MCRegisterInfo::getEncodingValue`). -/
structure Ctx where
  isLittleEndian : Bool
  isPIC : Bool
  registerEncoding : Nat → Nat

/-- `SparcMCCodeEmitter::getMachineOpValue` (source lines 138-162): a
register resolves to its encoding value; an immediate is returned
(converted to `unsigned`); a `SparcMCExpr` records a fixup with its own
fixup kind and yields 0; any other expression must fold to a constant,
otherwise `llvm_unreachable` fires. -/
def getMachineOpValue (ctx : Ctx) (mo : MCOperandVal) (fixups : List MCFixup) :
    Except EncError (Nat × List MCFixup) :=
  match mo with
  | .reg r => .ok (ctx.registerEncoding r, fixups)
  | .imm i => .ok (toUInt32n i, fixups)
  | .expr e =>
    match e with
    | .sparc fk sub => .ok (0, fixups ++ [⟨0, .sparc fk sub, fk⟩])
    | _ =>
      match evaluateAsAbsolute e with
      | some res => .ok (toUInt32n res, fixups)
      | none => .error .unreachableExpr

/-- `SparcMCCodeEmitter::getSImm13OpValue` (source lines 164-193): an
immediate is returned directly (no range check); a constant expression is
returned directly; a `SparcMCExpr` keeps its own fixup kind; any other
expression gets `fixup_sparc_got13` under PIC and `fixup_sparc_13`
otherwise; in the expression cases a fixup is appended and 0 returned.
A register operand trips `assert(MO.isExpr())`. -/
def getSImm13OpValue (ctx : Ctx) (mi : MCInst) (opNo : Nat)
    (fixups : List MCFixup) : Except EncError (Nat × List MCFixup) :=
  match mi.operands[opNo]? with
  | none => .error .assertFail
  | some mo =>
    match mo with
    | .imm i => .ok (toUInt32n i, fixups)
    | .reg _ => .error .assertFail
    | .expr e =>
      match e with
      | .constant n => .ok (toUInt32n n, fixups)
      | .sparc fk sub => .ok (0, fixups ++ [⟨0, .sparc fk sub, fk⟩])
      | .symbol id =>
        let kind : MCFixupKind :=
          if ctx.isPIC then .fixup_sparc_got13 else .fixup_sparc_13
        .ok (0, fixups ++ [⟨0, .symbol id, kind⟩])

/-- `SparcMCCodeEmitter::getImm5OpValue` (source lines 250-279): like
`getSImm13OpValue` but immediates and constant expressions are passed
through `imm5OpEncoder`, and the default fixup kinds are
`fixup_sparc_got5` / `fixup_sparc_5`. -/
def getImm5OpValue (ctx : Ctx) (mi : MCInst) (opNo : Nat)
    (fixups : List MCFixup) : Except EncError (Nat × List MCFixup) :=
  match mi.operands[opNo]? with
  | none => .error .assertFail
  | some mo =>
    match mo with
    | .imm i => (imm5OpEncoder i).map (fun c => (c, fixups))
    | .reg _ => .error .assertFail
    | .expr e =>
      match e with
      | .constant n => (imm5OpEncoder n).map (fun c => (c, fixups))
      | .sparc fk sub => .ok (0, fixups ++ [⟨0, .sparc fk sub, fk⟩])
      | .symbol id =>
        let kind : MCFixupKind :=
          if ctx.isPIC then .fixup_sparc_got5 else .fixup_sparc_5
        .ok (0, fixups ++ [⟨0, .symbol id, kind⟩])

/-- `SparcMCCodeEmitter::getSImm5OpValue` (source lines 282-311): like
`getImm5OpValue` but through `sImm5OpEncoder`. -/
def getSImm5OpValue (ctx : Ctx) (mi : MCInst) (opNo : Nat)
    (fixups : List MCFixup) : Except EncError (Nat × List MCFixup) :=
  match mi.operands[opNo]? with
  | none => .error .assertFail
  | some mo =>
    match mo with
    | .imm i => (sImm5OpEncoder i).map (fun c => (c, fixups))
    | .reg _ => .error .assertFail
    | .expr e =>
      match e with
      | .constant n => (sImm5OpEncoder n).map (fun c => (c, fixups))
      | .sparc fk sub => .ok (0, fixups ++ [⟨0, .sparc fk sub, fk⟩])
      | .symbol id =>
        let kind : MCFixupKind :=
          if ctx.isPIC then .fixup_sparc_got5 else .fixup_sparc_5
        .ok (0, fixups ++ [⟨0, .symbol id, kind⟩])

/-- `SparcMCCodeEmitter::getCallTargetOpValue` (source lines 313-338): the
operand must be an expression (`MO.getExpr()` asserts); for `TLS_CALL` no
fixup is recorded and 0 is returned (the `#ifndef NDEBUG` callee-name check
is compiled out in release builds and not modelled); otherwise the
expression must be a `SparcMCExpr` (the unchecked `dyn_cast` result is
dereferenced) whose fixup kind is recorded. -/
def getCallTargetOpValue (mi : MCInst) (opNo : Nat) (fixups : List MCFixup) :
    Except EncError (Nat × List MCFixup) :=
  match mi.operands[opNo]? with
  | none => .error .assertFail
  | some mo =>
    match mo with
    | .expr e =>
      if mi.opcode = .TLS_CALL then .ok (0, fixups)
      else
        match e with
        | .sparc fk sub => .ok (0, fixups ++ [⟨0, .sparc fk sub, fk⟩])
        | _ => .error .assertFail
    | _ => .error .assertFail

/-- `SparcMCCodeEmitter::getBranchTargetOpValue` (source lines 340-351): a
register or immediate goes through `getMachineOpValue`; otherwise one
fixup with the fixed kind `fixup_sparc_br22` is appended and 0 returned. -/
def getBranchTargetOpValue (ctx : Ctx) (mi : MCInst) (opNo : Nat)
    (fixups : List MCFixup) : Except EncError (Nat × List MCFixup) :=
  match mi.operands[opNo]? with
  | none => .error .assertFail
  | some mo =>
    match mo with
    | .reg r => getMachineOpValue ctx (.reg r) fixups
    | .imm i => getMachineOpValue ctx (.imm i) fixups
    | .expr e => .ok (0, fixups ++ [⟨0, e, .fixup_sparc_br22⟩])

/-- `SparcMCCodeEmitter::getBranchPredTargetOpValue` (source lines 353-364):
like `getBranchTargetOpValue` with fixed kind `fixup_sparc_br19`. -/
def getBranchPredTargetOpValue (ctx : Ctx) (mi : MCInst) (opNo : Nat)
    (fixups : List MCFixup) : Except EncError (Nat × List MCFixup) :=
  match mi.operands[opNo]? with
  | none => .error .assertFail
  | some mo =>
    match mo with
    | .reg r => getMachineOpValue ctx (.reg r) fixups
    | .imm i => getMachineOpValue ctx (.imm i) fixups
    | .expr e => .ok (0, fixups ++ [⟨0, e, .fixup_sparc_br19⟩])

/-- `SparcMCCodeEmitter::getBranchOnRegTargetOpValue` (source lines
366-380): a register or immediate goes through `getMachineOpValue`;
otherwise two fixups are appended, `fixup_sparc_br16_2` first and
`fixup_sparc_br16_14` second, both on the same expression, and 0 is
returned. -/
def getBranchOnRegTargetOpValue (ctx : Ctx) (mi : MCInst) (opNo : Nat)
    (fixups : List MCFixup) : Except EncError (Nat × List MCFixup) :=
  match mi.operands[opNo]? with
  | none => .error .assertFail
  | some mo =>
    match mo with
    | .reg r => getMachineOpValue ctx (.reg r) fixups
    | .imm i => getMachineOpValue ctx (.imm i) fixups
    | .expr e =>
      .ok (0, fixups ++ [⟨0, e, .fixup_sparc_br16_2⟩, ⟨0, e, .fixup_sparc_br16_14⟩])

/-- `support::endian::write(OS, Bits, ...)` on an `unsigned`: the four bytes
of `bits mod 2 ^ 32`, least-significant first when little-endian. -/
def serialize32 (little : Bool) (bits : Nat) : List Nat :=
  let b := bits % 2 ^ 32
  let bytes := [b % 256, b / 2 ^ 8 % 256, b / 2 ^ 16 % 256, b / 2 ^ 24 % 256]
  if little then bytes else bytes.reverse

/-- The externally generated machinery `encodeInstruction` calls, treated as
opaque parameters: `verifyInstructionPredicates`+`computeAvailableFeatures`
(collapsed into one pass/fail verdict per instruction, since the feature
bits are fixed per call) and the TableGen'erated `getBinaryCodeForInstr`,
which may append fixups (it dispatches to the operand encoders above) and
may itself fail fatally. -/
structure EmitterExt where
  predicatesOK : MCInst → Bool
  getBinaryCodeForInstr :
    MCInst → List MCFixup → Except EncError (Nat × List MCFixup)

/-- The TLS operand index chosen by the `switch (MI.getOpcode())` in
`encodeInstruction` (source lines 119-127): 1 for `TLS_CALL`, 3 for the
TLS add/load register variants, 0 (meaning: none) otherwise. -/
def tlsOpNo (op : Opcode) : Nat :=
  match op with
  | .TLS_CALL => 1
  | .TLS_ADDrr | .TLS_ADDXrr | .TLS_LDrr | .TLS_LDXrr => 3
  | .other _ => 0

/-- `SparcMCCodeEmitter::encodeInstruction` (source lines 109-136), without
the counter: verify predicates (fatal on failure), obtain the instruction
word from `getBinaryCodeForInstr` (which appends operand fixups),
serialize it with the configured byte order, then for the TLS opcodes
resolve the designated TLS operand through `getMachineOpValue` and require
the resolved value to be 0 (`assert(op == 0)`). Returns the emitted bytes
and the final fixup list. -/
def encodeInstructionCore (ext : EmitterExt) (ctx : Ctx) (mi : MCInst)
    (fixups : List MCFixup) : Except EncError (List Nat × List MCFixup) := do
  if ext.predicatesOK mi = false then throw .predicateFail
  let r ← ext.getBinaryCodeForInstr mi fixups
  let bytes := serialize32 ctx.isLittleEndian r.1
  let t := tlsOpNo mi.opcode
  if t ≠ 0 then
    match mi.operands[t]? with
    | none => throw .assertFail
    | some mo => do
      let q ← getMachineOpValue ctx mo r.2
      if q.1 = 0 then return (bytes, q.2) else throw .assertFail
  else
    return (bytes, r.2)

/-- `SparcMCCodeEmitter::encodeInstruction` with the `MCNumEmitted`
statistic threaded through: `++MCNumEmitted` is the last statement of the
function, so the counter advances by 1 exactly when no fatal path was
taken earlier; `report_fatal_error` aborts before reaching it. -/
def encodeInstruction (ext : EmitterExt) (ctx : Ctx) (mi : MCInst)
    (fixups : List MCFixup) (numEmitted : Nat) :
    Except EncError (List Nat × List MCFixup) × Nat :=
  match encodeInstructionCore ext ctx mi fixups with
  | .ok r => (.ok r, numEmitted + 1)
  | .error e => (.error e, numEmitted)

/-! ## Claim theorems -/

/-- C1 (amended): for every integer v in [0, 255] on which `imm5OpEncoder`
returns normally (its internal verification does not fire), the returned
code is 5 bits wide and the decode formula
`2^((code>>1)&0b111) + 2*((code>>4)&1) - (code&1)` applied to it equals v.
(The claim's stronger statement — that the encoder returns normally for
every v in [0, 255] — is false; see the counterexample at v = 11.) -/
theorem imm5_roundtrip_on_success (v : Int) (h0 : 0 ≤ v) (h1 : v ≤ 255) :
    ∀ c, imm5OpEncoder v = .ok c → imm5Decode c = v ∧ c < 32 := by
  have hv : v = ((v.toNat : Nat) : Int) := (Int.toNat_of_nonneg h0).symm
  have hlt : v.toNat < 256 := by omega
  rw [hv]
  exact imm5RoundTrip_sound _ (imm5RoundTripOK_all v.toNat hlt)

/-- C1 witness: the theorem applied at v = 3, whose encoding is the code 5
(0b00101), as in the spec's concrete scenario. -/
theorem imm5_roundtrip_on_success_witness : imm5Decode 5 = 3 ∧ 5 < 32 :=
  imm5_roundtrip_on_success 3 (by decide) (by decide) 5 rfl

/-- C1 counterexample: at v = 11 (which lies in [0, 255]) the unsigned
magnitude encoder does not return normally — the odd-adjustment yields 12,
which is not a power of two, so the internal verification fires fatally. -/
theorem imm5_roundtrip_counterexample :
    imm5OpEncoder 11 = .error .verifError := rfl

/-- C2 (amended): for every integer v in [-128, 127] on which
`sImm5OpEncoder` returns normally, the returned code is 5 bits wide and the
decode formula `sign * (2^((code>>1)&0b111) - (code&1))`, with sign = -1
when bit 4 is set and +1 otherwise, applied to it equals v. (The claim's
stronger statement — that the encoder returns normally for every v in
[-128, 127] — is false; see the counterexample at v = 5.) -/
theorem sImm5_roundtrip_on_success (v : Int) (h0 : -128 ≤ v) (h1 : v ≤ 127) :
    ∀ c, sImm5OpEncoder v = .ok c → sImm5Decode c = v ∧ c < 32 := by
  have hv : v = (((v + 128).toNat : Nat) : Int) - 128 := by omega
  have hlt : (v + 128).toNat < 256 := by omega
  rw [hv]
  exact sImm5RoundTrip_sound _ (sImm5RoundTripOK_all _ hlt)

/-- C2 witness: the theorem applied at v = -4, whose encoding is the code
20 (0b10100), as in the spec's concrete scenario. -/
theorem sImm5_roundtrip_on_success_witness : sImm5Decode 20 = -4 ∧ 20 < 32 :=
  sImm5_roundtrip_on_success (-4) (by decide) (by decide) 20 rfl

/-- C2 counterexample: at v = 5 (which lies in [-128, 127]) the signed
magnitude encoder does not return normally — the odd-adjustment yields 6,
which is not a power of two, so the internal verification fires fatally. -/
theorem sImm5_roundtrip_counterexample :
    sImm5OpEncoder 5 = .error .verifError := rfl

/-- C3: every integer outside [0, 255] makes `imm5OpEncoder` fail with the
domain-range error, and every integer outside [-128, 127] makes
`sImm5OpEncoder` fail with the domain-range error; neither encoder ever
wraps an out-of-domain value into a code (the result is an error, never
`.ok`). -/
theorem out_of_domain_fatal :
    (∀ v : Int, v < 0 ∨ 255 < v → imm5OpEncoder v = .error .domainError) ∧
    (∀ v : Int, v < -128 ∨ 127 < v → sImm5OpEncoder v = .error .domainError) := by
  constructor
  · intro v hv
    have h0 : ¬ (v = 0) := by omega
    have h1 : v > 255 ∨ v < 0 := by omega
    simp only [imm5OpEncoder, if_neg h0, if_pos h1]
  · intro v hv
    have h0 : ¬ (v = 0) := by omega
    have h1 : v > 127 ∨ v < -128 := by omega
    simp only [sImm5OpEncoder, if_neg h0, if_pos h1]

/-- C3 witness: the theorem applied at v = 256 (unsigned form) and
v = -129 (signed form). -/
theorem out_of_domain_fatal_witness :
    imm5OpEncoder 256 = .error .domainError ∧
    sImm5OpEncoder (-129) = .error .domainError :=
  ⟨out_of_domain_fatal.1 256 (by decide), out_of_domain_fatal.2 (-129) (by decide)⟩

/-- C4: for an unresolved-expression operand, `getSImm13OpValue` and
`getImm5OpValue` use a `SparcMCExpr`'s own fixup kind verbatim; for any
other unresolved expression they pick `fixup_sparc_got13` resp.
`fixup_sparc_got5` when the context is position-independent and
`fixup_sparc_13` resp. `fixup_sparc_5` otherwise. -/
theorem fixup_kind_selection (ctx : Ctx) (mi : MCInst) (opNo : Nat)
    (fixups : List MCFixup) :
    (∀ fk sub, mi.operands[opNo]? = some (.expr (.sparc fk sub)) →
      getSImm13OpValue ctx mi opNo fixups =
        .ok (0, fixups ++ [⟨0, .sparc fk sub, fk⟩]) ∧
      getImm5OpValue ctx mi opNo fixups =
        .ok (0, fixups ++ [⟨0, .sparc fk sub, fk⟩])) ∧
    (∀ id, mi.operands[opNo]? = some (.expr (.symbol id)) →
      getSImm13OpValue ctx mi opNo fixups =
        .ok (0, fixups ++ [⟨0, .symbol id,
          if ctx.isPIC then .fixup_sparc_got13 else .fixup_sparc_13⟩]) ∧
      getImm5OpValue ctx mi opNo fixups =
        .ok (0, fixups ++ [⟨0, .symbol id,
          if ctx.isPIC then .fixup_sparc_got5 else .fixup_sparc_5⟩])) := by
  constructor
  · intro fk sub h
    constructor <;> simp [getSImm13OpValue, getImm5OpValue, h]
  · intro id h
    constructor <;> simp [getSImm13OpValue, getImm5OpValue, h]

/-- C4 witness: the theorem applied in a non-PIC context to an instruction
whose operand 0 is a plain (non-Sparc) unresolved symbol expression. -/
theorem fixup_kind_selection_witness :
    getSImm13OpValue ⟨true, false, fun r => r⟩
        ⟨Opcode.other 0, [.expr (.symbol 7)]⟩ 0 [] =
      .ok (0, [⟨0, .symbol 7, .fixup_sparc_13⟩]) ∧
    getImm5OpValue ⟨true, false, fun r => r⟩
        ⟨Opcode.other 0, [.expr (.symbol 7)]⟩ 0 [] =
      .ok (0, [⟨0, .symbol 7, .fixup_sparc_5⟩]) := by
  have h := (fixup_kind_selection ⟨true, false, fun r => r⟩
      ⟨Opcode.other 0, [.expr (.symbol 7)]⟩ 0 []).2 7 rfl
  simpa using h

/-- C5: for a register-conditional-branch-displacement operand that is an
unresolved expression, `getBranchOnRegTargetOpValue` appends exactly two
fixups in order — `fixup_sparc_br16_2` first, `fixup_sparc_br16_14`
second, both referencing the same expression — and returns 0. -/
theorem branchOnReg_two_fixups (ctx : Ctx) (mi : MCInst) (opNo : Nat)
    (fixups : List MCFixup) (e : MCExpr)
    (h : mi.operands[opNo]? = some (.expr e)) :
    getBranchOnRegTargetOpValue ctx mi opNo fixups =
      .ok (0, fixups ++
        [⟨0, e, .fixup_sparc_br16_2⟩, ⟨0, e, .fixup_sparc_br16_14⟩]) := by
  simp [getBranchOnRegTargetOpValue, h]

/-- C5 witness: the theorem applied to a concrete one-operand instruction. -/
theorem branchOnReg_two_fixups_witness :
    getBranchOnRegTargetOpValue ⟨true, false, fun r => r⟩
        ⟨Opcode.other 0, [.expr (.symbol 3)]⟩ 0 [] =
      .ok (0, [⟨0, .symbol 3, .fixup_sparc_br16_2⟩,
               ⟨0, .symbol 3, .fixup_sparc_br16_14⟩]) := by
  have h := branchOnReg_two_fixups ⟨true, false, fun r => r⟩
      ⟨Opcode.other 0, [.expr (.symbol 3)]⟩ 0 [] (.symbol 3) rfl
  simpa using h

/-- C6: when encoding a `TLS_CALL` instruction, the call-target operand
contributes no fixup (`getCallTargetOpValue` returns 0 with the fixup list
unchanged), while the designated TLS-symbol operand (index 1 for
`TLS_CALL`) is resolved through `getMachineOpValue` in `encodeInstruction`,
resolves to exactly 0, and its relocation is appended to the fixup list. -/
theorem tls_call_encoding (ext : EmitterExt) (ctx : Ctx) (mi : MCInst)
    (fixups f1 : List MCFixup) (bits n : Nat) (fk : MCFixupKind)
    (sub : MCExpr) (callOpNo : Nat) (e : MCExpr)
    (hop : mi.opcode = .TLS_CALL)
    (hpred : ext.predicatesOK mi = true)
    (hbin : ext.getBinaryCodeForInstr mi fixups = .ok (bits, f1))
    (hop1 : mi.operands[1]? = some (.expr (.sparc fk sub)))
    (hcall : mi.operands[callOpNo]? = some (.expr e)) :
    getCallTargetOpValue mi callOpNo fixups = .ok (0, fixups) ∧
    getMachineOpValue ctx (.expr (.sparc fk sub)) f1 =
      .ok (0, f1 ++ [⟨0, .sparc fk sub, fk⟩]) ∧
    encodeInstruction ext ctx mi fixups n =
      (.ok (serialize32 ctx.isLittleEndian bits,
            f1 ++ [⟨0, .sparc fk sub, fk⟩]), n + 1) := by
  refine ⟨?_, ?_, ?_⟩
  · simp [getCallTargetOpValue, hcall, hop]
  · simp [getMachineOpValue]
  · unfold encodeInstruction encodeInstructionCore
    rw [hpred, hop]
    simp only [hbin, tlsOpNo, hop1, getMachineOpValue]
    rfl

/-- C6 witness: the theorem applied to a concrete `TLS_CALL` instruction
whose operand 0 is the call target and operand 1 the TLS symbol, over an
external bit-layout table that returns word 0 and adds no fixups. -/
theorem tls_call_encoding_witness :
    getCallTargetOpValue
        ⟨Opcode.TLS_CALL,
          [.expr (.symbol 0), .expr (.sparc (.other 3) (.symbol 1))]⟩ 0 [] =
      .ok (0, []) ∧
    getMachineOpValue ⟨true, false, fun r => r⟩
        (.expr (.sparc (.other 3) (.symbol 1))) [] =
      .ok (0, [⟨0, .sparc (.other 3) (.symbol 1), .other 3⟩]) ∧
    encodeInstruction ⟨fun _ => true, fun _ f => .ok (0, f)⟩
        ⟨true, false, fun r => r⟩
        ⟨Opcode.TLS_CALL,
          [.expr (.symbol 0), .expr (.sparc (.other 3) (.symbol 1))]⟩ [] 0 =
      (.ok (serialize32 true 0,
            [⟨0, .sparc (.other 3) (.symbol 1), .other 3⟩]), 1) :=
  tls_call_encoding ⟨fun _ => true, fun _ f => .ok (0, f)⟩
    ⟨true, false, fun r => r⟩
    ⟨Opcode.TLS_CALL, [.expr (.symbol 0), .expr (.sparc (.other 3) (.symbol 1))]⟩
    [] [] 0 0 (.other 3) (.symbol 1) 0 (.symbol 0) rfl rfl rfl rfl rfl

/-- C7: a branch-displacement operand that is a register resolves to its
register encoding, and one that is an immediate resolves to its value
(converted to the unsigned return width), in both cases with zero fixups
appended; an unresolved expression appends exactly one fixup with the
fixed kind `fixup_sparc_br22` and returns 0. -/
theorem branch_target_resolution (ctx : Ctx) (mi : MCInst) (opNo : Nat)
    (fixups : List MCFixup) :
    (∀ r, mi.operands[opNo]? = some (.reg r) →
      getBranchTargetOpValue ctx mi opNo fixups =
        .ok (ctx.registerEncoding r, fixups)) ∧
    (∀ i, mi.operands[opNo]? = some (.imm i) →
      getBranchTargetOpValue ctx mi opNo fixups = .ok (toUInt32n i, fixups)) ∧
    (∀ e, mi.operands[opNo]? = some (.expr e) →
      getBranchTargetOpValue ctx mi opNo fixups =
        .ok (0, fixups ++ [⟨0, e, .fixup_sparc_br22⟩])) := by
  refine ⟨fun r h => ?_, fun i h => ?_, fun e h => ?_⟩ <;>
    simp [getBranchTargetOpValue, getMachineOpValue, h]

/-- C7 witness: the theorem applied to three concrete one-operand
instructions holding a register, an immediate and a symbol expression. -/
theorem branch_target_resolution_witness :
    getBranchTargetOpValue ⟨true, false, fun r => r + 100⟩
        ⟨Opcode.other 0, [.reg 9]⟩ 0 [] = .ok (109, []) ∧
    getBranchTargetOpValue ⟨true, false, fun r => r + 100⟩
        ⟨Opcode.other 0, [.imm 42]⟩ 0 [] = .ok (toUInt32n 42, []) ∧
    getBranchTargetOpValue ⟨true, false, fun r => r + 100⟩
        ⟨Opcode.other 0, [.expr (.symbol 3)]⟩ 0 [] =
      .ok (0, [⟨0, .symbol 3, .fixup_sparc_br22⟩]) ∧
    toUInt32n 42 = 42 :=
  ⟨(branch_target_resolution ⟨true, false, fun r => r + 100⟩
      ⟨Opcode.other 0, [.reg 9]⟩ 0 []).1 9 rfl,
   (branch_target_resolution ⟨true, false, fun r => r + 100⟩
      ⟨Opcode.other 0, [.imm 42]⟩ 0 []).2.1 42 rfl,
   (branch_target_resolution ⟨true, false, fun r => r + 100⟩
      ⟨Opcode.other 0, [.expr (.symbol 3)]⟩ 0 []).2.2 (.symbol 3) rfl,
   by decide⟩

/-- C8: `encodeInstruction` advances the emission counter `MCNumEmitted` by
exactly 1 on success, and every fatal failure (failed predicate
verification, domain violation, codec verification failure, failed
assertion) leaves it unchanged — the increment is the last step of the
function, after every fatal path. -/
theorem emission_counter (ext : EmitterExt) (ctx : Ctx) (mi : MCInst)
    (fixups : List MCFixup) (n : Nat) :
    (∀ r, (encodeInstruction ext ctx mi fixups n).1 = .ok r →
      (encodeInstruction ext ctx mi fixups n).2 = n + 1) ∧
    (∀ e, (encodeInstruction ext ctx mi fixups n).1 = .error e →
      (encodeInstruction ext ctx mi fixups n).2 = n) := by
  unfold encodeInstruction
  cases h : encodeInstructionCore ext ctx mi fixups <;> simp

/-- C8 witness: the theorem applied to a successful encode (counter 5 → 6)
and to one aborted by predicate verification (counter stays 5). -/
theorem emission_counter_witness :
    (encodeInstruction ⟨fun _ => true, fun _ f => .ok (0, f)⟩
        ⟨true, false, fun r => r⟩ ⟨Opcode.other 0, []⟩ [] 5).2 = 6 ∧
    (encodeInstruction ⟨fun _ => false, fun _ f => .ok (0, f)⟩
        ⟨true, false, fun r => r⟩ ⟨Opcode.other 0, []⟩ [] 5).2 = 5 :=
  ⟨(emission_counter ⟨fun _ => true, fun _ f => .ok (0, f)⟩
      ⟨true, false, fun r => r⟩ ⟨Opcode.other 0, []⟩ [] 5).1
      ([0, 0, 0, 0], []) rfl,
   (emission_counter ⟨fun _ => false, fun _ f => .ok (0, f)⟩
      ⟨true, false, fun r => r⟩ ⟨Opcode.other 0, []⟩ [] 5).2
      .predicateFail rfl⟩

/-- C9: both compact encoders map input 0 to the code `0b00001 = 1`, via
the zero special case that precedes the domain check and the bit
manipulation in the source. -/
theorem encode_zero_is_one :
    imm5OpEncoder 0 = .ok 1 ∧ sImm5OpEncoder 0 = .ok 1 := ⟨rfl, rfl⟩

/-- C10: for a literal immediate operand, `getSImm13OpValue` returns the
immediate converted to the unsigned return width and appends no fixup, for
every 64-bit value — no 13-bit (or any) range check is performed, so
values outside the signed 13-bit range are accepted without error. -/
theorem simm13_no_range_check (ctx : Ctx) (mi : MCInst) (opNo : Nat)
    (fixups : List MCFixup) (i : Int)
    (hlo : -(2 ^ 63) ≤ i) (hhi : i < 2 ^ 63)
    (h : mi.operands[opNo]? = some (.imm i)) :
    getSImm13OpValue ctx mi opNo fixups = .ok (toUInt32n i, fixups) := by
  simp [getSImm13OpValue, h]

/-- C10 witness: the theorem applied at i = 100000, far outside the signed
13-bit range [-4096, 4095], still accepted and returned unchanged. -/
theorem simm13_no_range_check_witness :
    getSImm13OpValue ⟨true, false, fun r => r⟩
        ⟨Opcode.other 0, [.imm 100000]⟩ 0 [] = .ok (toUInt32n 100000, []) ∧
    toUInt32n 100000 = 100000 :=
  ⟨simm13_no_range_check ⟨true, false, fun r => r⟩
      ⟨Opcode.other 0, [.imm 100000]⟩ 0 [] 100000
      (by decide) (by decide) rfl,
   by decide⟩

end SparcMC
